import Mathlib

/-!
Verification of the Study-Assistant frontend utilities.

This development gives a shallow embedding, in Lean, of the algorithmic parts
of the repository that the specification talks about:

* `src/frontend/src/utils/fileHandlers.js`
  (`chunkText`, `generateSummary`, `findRelevantPassages`, `extractPdfText`,
  `validateFileType`),
* `src/frontend/src/components/Documents/DocumentUploader.jsx` (`handleFiles`),
* `src/frontend/src/pages/Chat.jsx` (`handleSendMessage` and the simulated
  bot response).

JavaScript strings are embedded as `List Char` where index arithmetic matters
(the repository's inputs are ASCII; JS UTF-16 code-unit subtleties do not
arise for the properties proved here) and as Lean `String` for record fields.
JS numbers that only ever hold integers are embedded as `Int`/`Nat`.
Loops that the source writes with `while`/mutation are embedded as explicit
recursion; the one loop whose termination is itself in question (`chunkText`)
is embedded with explicit fuel, so that non-termination of the source loop is
exactly the statement that the fueled interpreter returns `none` for every
fuel value.
-/

namespace StudyAssistant

/-! ## JavaScript string primitives -/

/-- The ASCII part of the JavaScript `\s` whitespace class (space, tab,
line feed, vertical tab, form feed, carriage return).  The repository's
inputs are ASCII, so the Unicode space characters are not modelled. -/
def isJsWs (c : Char) : Bool :=
  c = ' ' || c = '\t' || c = '\n' || c = '\x0b' || c = '\x0c' || c = '\r'

/-- `String.prototype.toLowerCase`, character by character (ASCII-faithful). -/
def jsToLower (s : List Char) : List Char :=
  s.map Char.toLower

/-- `String.prototype.substring(a, b)`: both arguments are clamped into
`[0, length]` and swapped when out of order; the result is the slice
between the two clamped positions. -/
def jsSubstring (s : List Char) (a b : Int) : List Char :=
  let len : Int := s.length
  let a' := min (max a 0) len
  let b' := min (max b 0) len
  let lo := min a' b'
  let hi := max a' b'
  (s.take hi.toNat).drop lo.toNat

/-- `String.prototype.split(/\s+/)`: the separators are the maximal runs of
whitespace; a leading (resp. trailing) run contributes a leading (resp.
trailing) empty element, and `"".split` yields `[""]`. -/
def jsSplitWs : List Char → List (List Char)
  | [] => [[]]
  | [c] => if isJsWs c then [[], []] else [[c]]
  | c :: d :: rest =>
    match jsSplitWs (d :: rest) with
    | [] => []
    | t :: ts =>
      if isJsWs c then
        if isJsWs d then t :: ts
        else [] :: t :: ts
      else (c :: t) :: ts

/-- Auxiliary scan for `countOcc`, structurally recursive on a fuel value
(the fuel is instantiated with the length of the haystack, which bounds the
number of scan steps). -/
def countOccAux (needle : List Char) : Nat → List Char → Nat
  | 0, _ => 0
  | _, [] => 0
  | fuel + 1, c :: rest =>
    if needle.isPrefixOf (c :: rest) then
      1 + countOccAux needle fuel ((c :: rest).drop needle.length)
    else
      countOccAux needle fuel rest

/-- Number of matches of `String.prototype.match` with a global regex whose
pattern is the literal string `needle`: the leftmost, non-overlapping
occurrences of `needle` in `hay` are counted. -/
def countOcc (needle hay : List Char) : Nat :=
  countOccAux needle hay.length hay

/-! ## `chunkText` (fileHandlers.js, lines 260-299)

The source is a `while (startIndex < text.length)` loop; it is embedded with
explicit fuel.  The sentence-break search compares the loop index `i`
against `minBreakPosition = Math.max(startIndex + maxChunkSize * 0.8,
startIndex)`; since `i` is an integer, `i >= minBreakPosition` is equivalent
to `5 * i >= max (5 * startIndex + 4 * maxChunkSize) (5 * startIndex)`,
which is how the (exact) comparison is embedded without floating point. -/

/-- The four sentence-break strings `['. ', '? ', '! ', '\n\n']`. -/
def potentialBreaks : List (List Char) :=
  [['.', ' '], ['?', ' '], ['!', ' '], ['\n', '\n']]

/-- Whether `text.substring(i - breakChar.length, i) === breakChar` holds for
one of the break strings (each has length 2). -/
def isBreakAt (text : List Char) (i : Int) : Bool :=
  potentialBreaks.any (fun b => jsSubstring text (i - b.length) i == b)

/-- The inner `for (let i = endIndex; i >= minBreakPosition; i--)` search:
the first (largest) position `i` with `5 * i ≥ scaledMin` at which a break
string ends, if any.  `scaledMin` is five times `minBreakPosition`. -/
def findBreak (text : List Char) (endIndex scaledMin : Int) : Option Int :=
  let n : Nat :=
    if 5 * endIndex < scaledMin then 0
    else ((5 * endIndex - scaledMin) / 5 + 1).toNat
  ((List.range n).map (fun k => endIndex - k)).find? (fun i => isBreakAt text i)

/-- One iteration's computation of `endIndex` from `startIndex`:
`min(startIndex + maxChunkSize, text.length)`, moved back to the latest
sentence break in the last 20% of the chunk when the chunk does not already
reach the end of the text. -/
def chunkStep (text : List Char) (maxChunkSize : Nat) (start : Int) : Int :=
  let len : Int := text.length
  let end0 : Int := min (start + maxChunkSize) len
  if end0 < len then
    let scaledMin : Int := max (5 * start + 4 * maxChunkSize) (5 * start)
    match findBreak text end0 scaledMin with
    | some i => i
    | none => end0
  else end0

/-- The `while (startIndex < text.length)` loop of `chunkText`, with fuel:
`none` means the loop has not finished within the given number of
iterations. -/
def chunkTextLoop (text : List Char) (maxChunkSize chunkOverlap : Nat) :
    Nat → Int → List (List Char) → Option (List (List Char))
  | 0, _, _ => none
  | fuel + 1, start, chunks =>
    if start < (text.length : Int) then
      let endIndex := chunkStep text maxChunkSize start
      chunkTextLoop text maxChunkSize chunkOverlap fuel (endIndex - chunkOverlap)
        (chunks ++ [jsSubstring text start endIndex])
    else some chunks

/-- `chunkText(text, maxChunkSize, chunkOverlap)` under a fuel bound on the
number of loop iterations.  The source's defaults are
`maxChunkSize = 1500`, `chunkOverlap = 100`. -/
def chunkText (fuel : Nat) (text : List Char) (maxChunkSize chunkOverlap : Nat) :
    Option (List (List Char)) :=
  if text.length = 0 then some []
  else chunkTextLoop text maxChunkSize chunkOverlap fuel 0 []

/-- Once `startIndex` has the fixed-point value `5 - 100 = -95` on the
five-character text `"hello"` (with the default parameters), every further
iteration recomputes `endIndex = 5` and resets `startIndex` to `-95`, so the
loop never exits, whatever the remaining fuel. -/
lemma chunkTextLoop_hello_fixpoint :
    ∀ (fuel : Nat) (chunks : List (List Char)),
      chunkTextLoop ['h', 'e', 'l', 'l', 'o'] 1500 100 fuel (-95) chunks = none := by
  intro fuel
  induction fuel with
  | zero => intro chunks; rfl
  | succ n ih =>
    intro chunks
    have hstep : chunkStep ['h', 'e', 'l', 'l', 'o'] 1500 (-95) = 5 := by decide
    rw [chunkTextLoop]
    simp only [hstep]
    norm_num
    exact ih _

/-- C1: the loop of `chunkText` does not advance its start index on the
final chunk: after the chunk reaching `text.length` is pushed, `startIndex`
is reset to `text.length - chunkOverlap` and the same final chunk is pushed
again forever.  On the non-empty input `"hello"` with the default parameters
`maxChunkSize = 1500`, `chunkOverlap = 100`, the loop never terminates: the
fueled interpreter returns `none` for every fuel value. -/
theorem chunkText_default_nonterminating :
    ∀ fuel : Nat, chunkText fuel ['h', 'e', 'l', 'l', 'o'] 1500 100 = none := by
  intro fuel
  cases fuel with
  | zero => rfl
  | succ n =>
    have hstep : chunkStep ['h', 'e', 'l', 'l', 'o'] 1500 0 = 5 := by decide
    rw [chunkText]
    norm_num
    rw [chunkTextLoop]
    simp only [hstep]
    norm_num
    exact chunkTextLoop_hello_fixpoint n _

/-! ## `generateSummary` (fileHandlers.js, lines 342-361) -/

/-- A sentence terminator: one of `.`, `!`, `?` (the character classes of the
regex `/[^\.!\?]+[\.!\?]+/g`). -/
def isSentenceTerm (c : Char) : Bool :=
  c == '.' || c == '!' || c == '?'

/-- Auxiliary scan for `jsSentences`, structurally recursive on a fuel value
(instantiated with the text length, which bounds the number of scan
steps: every step consumes at least one character). -/
def jsSentencesAux : Nat → List Char → List (List Char)
  | 0, _ => []
  | _, [] => []
  | fuel + 1, c :: rest =>
    if isSentenceTerm c then
      jsSentencesAux fuel rest
    else
      let after := (c :: rest).dropWhile (fun x => !isSentenceTerm x)
      let terms := after.takeWhile isSentenceTerm
      if terms.isEmpty then []
      else
        ((c :: rest).takeWhile (fun x => !isSentenceTerm x) ++ terms) ::
          jsSentencesAux fuel (after.dropWhile isSentenceTerm)

/-- `text.match(/[^\.!\?]+[\.!\?]+/g) || []`: the list of sentences, each a
maximal run of non-terminator characters followed by the maximal run of
terminators that ends it; a trailing fragment with no terminator is not a
sentence. -/
def jsSentences (text : List Char) : List (List Char) :=
  jsSentencesAux text.length text

/-- The `for (const sentence of sentences)` accumulation loop of
`generateSummary`: a sentence is appended while it still fits in
`maxLength`; the first sentence that does not fit stops the loop. -/
def summaryGo (maxLength : Nat) :
    List (List Char) → List Char → Nat → List Char
  | [], summary, _ => summary
  | s :: rest, summary, currentLength =>
    if currentLength + s.length ≤ maxLength then
      summaryGo maxLength rest (summary ++ s) (currentLength + s.length)
    else summary

/-- `generateSummary(text, maxLength)` (default `maxLength = 500`). -/
def generateSummary (text : List Char) (maxLength : Nat) : List Char :=
  summaryGo maxLength (jsSentences text) [] 0

/-- The accumulation loop returns the accumulator extended by the longest
prefix of the remaining sentences that still fits within `maxLength`. -/
lemma summaryGo_spec (maxLength : Nat) :
    ∀ (L : List (List Char)) (acc : List Char), acc.length ≤ maxLength →
      ∃ k, summaryGo maxLength L acc acc.length = acc ++ (L.take k).flatten ∧
        (acc ++ (L.take k).flatten).length ≤ maxLength ∧
        ∀ j, (acc ++ (L.take j).flatten).length ≤ maxLength →
          (L.take j).flatten.length ≤ (L.take k).flatten.length := by
  intro L
  induction L with
  | nil =>
    intro acc hacc
    refine ⟨0, by simp [summaryGo], by simpa using hacc, ?_⟩
    intro j _
    simp
  | cons s rest ih =>
    intro acc hacc
    by_cases hfit : acc.length + s.length ≤ maxLength
    · have hlen : (acc ++ s).length = acc.length + s.length := by
        simp
      obtain ⟨k, hk, hbound, hmax⟩ := ih (acc ++ s) (by rw [hlen]; exact hfit)
      refine ⟨k + 1, ?_, ?_, ?_⟩
      · rw [summaryGo, if_pos hfit, ← hlen, hk]
        simp [List.take_succ_cons]
      · simpa [List.take_succ_cons, List.append_assoc] using hbound
      · intro j hj
        cases j with
        | zero => simp
        | succ j' =>
          have hj' : ((acc ++ s) ++ (rest.take j').flatten).length ≤ maxLength := by
            simpa [List.take_succ_cons, List.append_assoc] using hj
          have := hmax j' hj'
          simp only [List.take_succ_cons, List.flatten_cons, List.length_append]
          omega
    · refine ⟨0, ?_, by simpa using hacc, ?_⟩
      · rw [summaryGo, if_neg hfit]
        simp
      · intro j hj
        cases j with
        | zero => simp
        | succ j' =>
          exfalso
          apply hfit
          have : acc.length + s.length ≤
              (acc ++ ((s :: rest).take (j' + 1)).flatten).length := by
            simp [List.take_succ_cons]
          omega

/-- C10: `generateSummary` returns a string of length at most `maxLength`
which is the concatenation of the longest initial run of the text's
sentences (in order) fitting within `maxLength`; when the first sentence
alone already exceeds `maxLength`, the summary is empty. -/
theorem generateSummary_spec (text : List Char) (maxLength : Nat) :
    (generateSummary text maxLength).length ≤ maxLength ∧
    (∃ k, generateSummary text maxLength = ((jsSentences text).take k).flatten ∧
      ∀ j, ((jsSentences text).take j).flatten.length ≤ maxLength →
        ((jsSentences text).take j).flatten.length ≤
          (generateSummary text maxLength).length) ∧
    (∀ s, (jsSentences text).head? = some s → maxLength < s.length →
      generateSummary text maxLength = []) := by
  obtain ⟨k, hk, hbound, hmax⟩ :=
    summaryGo_spec maxLength (jsSentences text) [] (by simp)
  have hgen : generateSummary text maxLength = ((jsSentences text).take k).flatten := by
    simpa [generateSummary] using hk
  refine ⟨?_, ⟨k, hgen, ?_⟩, ?_⟩
  · rw [hgen]
    simpa using hbound
  · intro j hj
    rw [hgen]
    exact hmax j (by simpa using hj)
  · intro s hs hlong
    cases hL : jsSentences text with
    | nil => simp [generateSummary, hL, summaryGo]
    | cons s' rest =>
      rw [hL] at hs
      have hss : s' = s := by simpa using hs
      subst hss
      have hcond : ¬ (0 + s'.length ≤ maxLength) := by omega
      rw [generateSummary, hL, summaryGo, if_neg hcond]

/-- Witness for C10 at a concrete input: the first sentence of
`"Hello. Bye."` has length 6, so with `maxLength = 3` the summary is
empty. -/
theorem generateSummary_spec_witness :
    generateSummary ['H', 'e', 'l', 'l', 'o', '.', ' ', 'B', 'y', 'e', '.'] 3 = [] := by
  exact (generateSummary_spec ['H', 'e', 'l', 'l', 'o', '.', ' ', 'B', 'y', 'e', '.'] 3).2.2
    ['H', 'e', 'l', 'l', 'o', '.'] (by decide) (by decide)

/-! ## Session entities (DocumentUploader.jsx, Chat.jsx)

A JavaScript identifier value: document ids are strings
(`Date.now() + Math.random().toString(36).substr(2, 9)` concatenates the
number into a string), chat-message ids are numbers (`Date.now()`,
`Date.now() + 1`).  Strict equality `===` across the two shapes is always
false, which the two constructors capture. -/
inductive JsId where
  | str (s : String)
  | num (n : Int)
deriving DecidableEq

/-- The fields of a `File` object that the uploader reads. -/
structure JsFile where
  name : String
  type : String
  size : Nat
deriving DecidableEq

/-- MIME type of a PDF file. -/
def pdfMime : String := "application/pdf"

/-- MIME type of a Word (DOCX) file. -/
def docxMime : String :=
  "application/vnd.openxmlformats-officedocument.wordprocessingml.document"

/-- `allowedFileTypes` of DocumentUploader.jsx (the same list is the default
of `validateFileType` in fileHandlers.js). -/
def allowedFileTypes : List String := [pdfMime, docxMime]

/-- The fixed placeholder content string of every simulated upload. -/
def placeholderContent : String :=
  "This is a placeholder for the actual document content. In a real application, this would be processed and stored by the backend."

/-- A client-side document record as built by `handleFiles`. -/
structure Document where
  id : JsId
  name : String
  type : String
  size : Nat
  uploadDate : String
  content : String
  pages : Option Nat
deriving DecidableEq

/-- The per-file environment of one simulated upload: the millisecond value
of `Date.now()`, the random id suffix `Math.random().toString(36).substr(2, 9)`,
the `new Date().toISOString()` string, and the random draw
`Math.floor(Math.random() * 20)` used for the fake page count. -/
structure UploadEnv where
  now : Nat
  rand : String
  uploadDate : String
  pageRand : Nat
deriving DecidableEq

/-- The document record built inside the upload promise of `handleFiles`
(DocumentUploader.jsx, lines 79-87): `pages` is a random count in `5..24`
for a PDF and `null` otherwise. -/
def mkDocument (f : JsFile) (env : UploadEnv) : Document :=
  { id := JsId.str (toString env.now ++ env.rand)
    name := f.name
    type := f.type
    size := f.size
    uploadDate := env.uploadDate
    content := placeholderContent
    pages := if f.type = pdfMime then some (env.pageRand % 20 + 5) else none }

/-- A chat message as built in Chat.jsx; `source` is the optional citation
`{ document, page }` attached to simulated bot responses. -/
structure ChatMessage where
  id : JsId
  sender : String
  text : String
  timestamp : Int
  source : Option (String × Int)
deriving DecidableEq

/-- `String.prototype.trim` (ASCII whitespace, see `isJsWs`). -/
def jsTrim (s : String) : String :=
  String.mk (((s.data.dropWhile isJsWs).reverse.dropWhile isJsWs).reverse)

/-- The user message built by `handleSendMessage` (Chat.jsx, lines 48-53):
its id is the bare `Date.now()` value. -/
def mkUserMessage (text : String) (now : Int) : ChatMessage :=
  { id := JsId.num now, sender := "user", text := text, timestamp := now,
    source := none }

/-- The synchronous part of `handleSendMessage` (Chat.jsx, lines 44-55):
blank input (empty or whitespace-only) is rejected, otherwise the new user
message is appended to the message list. -/
def handleSendMessage (msgs : List ChatMessage) (text : String) (now : Int) :
    List ChatMessage :=
  if text = "" ∨ jsTrim text = "" then msgs
  else msgs ++ [mkUserMessage text now]

/-- The text of the simulated bot response (Chat.jsx, line 62). -/
def botReplyText (active : Option Document) : String :=
  "I\x27m analyzing your question about " ++
    (match active with
     | some d => d.name
     | none => "your documents") ++
    ". In a real implementation, this would be answered by the backend using RAG."

/-- The bot response built in the `setTimeout` callback of
`handleSendMessage` (Chat.jsx, lines 59-69): its id is `Date.now() + 1`
evaluated in the callback, and the citation carries a random page in
`1..5` when a document is active. -/
def mkBotResponse (active : Option Document) (now : Int) (pageRand : Nat) :
    ChatMessage :=
  { id := JsId.num (now + 1)
    sender := "bot"
    text := botReplyText active
    timestamp := now
    source :=
      match active with
      | some d => some (d.name, (pageRand % 5 : Int) + 1)
      | none => none }

/-- The `setTimeout` callback of `handleSendMessage`: the bot response is
appended to the current message list. -/
def botTimeout (msgs : List ChatMessage) (active : Option Document)
    (now : Int) (pageRand : Nat) : List ChatMessage :=
  msgs ++ [mkBotResponse active now pageRand]

/-! ## C5: `handleSendMessage` appends and preserves the prefix -/

/-- C5: for non-blank input `handleSendMessage` appends the new user
message at the end, leaving every existing message unchanged in its
position (the prefix of the sequence is exactly the old sequence); for
blank input the sequence is unchanged. -/
theorem handleSendMessage_spec (msgs : List ChatMessage) (text : String) (now : Int) :
    (jsTrim text ≠ "" →
      handleSendMessage msgs text now = msgs ++ [mkUserMessage text now] ∧
      (handleSendMessage msgs text now).take msgs.length = msgs) ∧
    (jsTrim text = "" → handleSendMessage msgs text now = msgs) := by
  constructor
  · intro hne
    have hempty : text ≠ "" := by
      intro h
      exact hne (by rw [h]; rfl)
    have hcond : ¬ (text = "" ∨ jsTrim text = "") := by
      rintro (h | h)
      · exact hempty h
      · exact hne h
    rw [handleSendMessage, if_neg hcond]
    exact ⟨rfl, List.take_left msgs [mkUserMessage text now]⟩
  · intro he
    rw [handleSendMessage, if_pos (Or.inr he)]

/-- Witness for C5 at a concrete input: sending `"hi"` at time 5 into the
empty sequence yields exactly the one new user message. -/
theorem handleSendMessage_spec_witness :
    handleSendMessage [] "hi" 5 = [mkUserMessage "hi" 5] ∧
    handleSendMessage [] " " 5 = [] := by
  exact ⟨((handleSendMessage_spec [] "hi" 5).1 (by decide)).1,
    (handleSendMessage_spec [] " " 5).2 (by decide)⟩

/-! ## C7: the bot reply text depends only on the active document's name -/

/-- C7: the simulated bot reply text is a fixed placeholder determined by
the active document's name alone: two sessions whose active documents agree
on the name (differing, e.g., only in their content strings) produce the
same bot reply text for the same send. -/
theorem botReplyText_noninterference (a₁ a₂ : Option Document)
    (h : a₁.map Document.name = a₂.map Document.name) (now : Int) (pageRand : Nat) :
    (mkBotResponse a₁ now pageRand).text = (mkBotResponse a₂ now pageRand).text := by
  cases a₁ with
  | none =>
    cases a₂ with
    | none => rfl
    | some d => simp at h
  | some d₁ =>
    cases a₂ with
    | none => simp at h
    | some d₂ =>
      have hname : d₁.name = d₂.name := by simpa using h
      simp [mkBotResponse, botReplyText, hname]

/-- Witness for C7 at concrete inputs: two documents with the same name and
different content strings give the same bot reply. -/
theorem botReplyText_noninterference_witness :
    (mkBotResponse
        (some { id := JsId.str "a", name := "notes.pdf", type := "application/pdf",
                size := 10, uploadDate := "d", content := "AAA", pages := none })
        7 3).text =
      (mkBotResponse
        (some { id := JsId.str "b", name := "notes.pdf", type := "application/pdf",
                size := 99, uploadDate := "e", content := "BBB", pages := some 6 })
        7 3).text := by
  exact botReplyText_noninterference _ _ rfl 7 3

/-! ## C8: the fields of an uploaded document record -/

/-- C8: every document record built by a simulated upload carries the
file's name, MIME type and byte size, the upload timestamp string, the
fixed placeholder content, and a page count that is non-null exactly when
the file is a PDF (in particular null for a DOCX file). -/
theorem mkDocument_fields (f : JsFile) (env : UploadEnv) :
    (mkDocument f env).name = f.name ∧
    (mkDocument f env).type = f.type ∧
    (mkDocument f env).size = f.size ∧
    (mkDocument f env).uploadDate = env.uploadDate ∧
    (mkDocument f env).content = placeholderContent ∧
    ((mkDocument f env).pages ≠ none ↔ f.type = pdfMime) ∧
    (f.type = docxMime → (mkDocument f env).pages = none) := by
  refine ⟨rfl, rfl, rfl, rfl, rfl, ?_, ?_⟩
  · by_cases h : f.type = pdfMime
    · simp [mkDocument, h]
    · simp [mkDocument, h]
  · intro h
    have hne : f.type ≠ pdfMime := by
      rw [h]
      decide
    simp [mkDocument, hne]

/-- Witness for C8 at a concrete input: a DOCX upload has a null page
count, a PDF upload a non-null one. -/
theorem mkDocument_fields_witness :
    (mkDocument { name := "a.docx", type := docxMime, size := 3 }
        { now := 1, rand := "r", uploadDate := "d", pageRand := 0 }).pages = none ∧
    (mkDocument { name := "b.pdf", type := pdfMime, size := 4 }
        { now := 2, rand := "s", uploadDate := "e", pageRand := 0 }).pages ≠ none := by
  constructor
  · exact (mkDocument_fields { name := "a.docx", type := docxMime, size := 3 }
      { now := 1, rand := "r", uploadDate := "d", pageRand := 0 }).2.2.2.2.2.2 rfl
  · exact (mkDocument_fields { name := "b.pdf", type := pdfMime, size := 4 }
      { now := 2, rand := "s", uploadDate := "e", pageRand := 0 }).2.2.2.2.2.1.mpr rfl

/-! ## C2: identifier uniqueness within a session -/

/-- C2 counterexample: two sends in the same millisecond produce two
distinct user messages with the *same* identifier `Date.now()`, so
identifier uniqueness within the session is not an invariant of
`handleSendMessage`. -/
theorem sameMillisecond_sends_collide :
    ((handleSendMessage (handleSendMessage [] "hi" 1000) "yo" 1000).map
        ChatMessage.id) = [JsId.num 1000, JsId.num 1000] ∧
    ¬ ((handleSendMessage (handleSendMessage [] "hi" 1000) "yo" 1000).map
        ChatMessage.id).Nodup ∧
    handleSendMessage (handleSendMessage [] "hi" 1000) "yo" 1000 =
      [mkUserMessage "hi" 1000, mkUserMessage "yo" 1000] ∧
    mkUserMessage "hi" 1000 ≠ mkUserMessage "yo" 1000 := by
  refine ⟨by decide, by decide, by decide, by decide⟩

/-- The list underlying a string append is the append of the lists. -/
lemma string_data_append (a b : String) : (a ++ b).data = a.data ++ b.data := by
  cases a
  cases b
  rfl

/-- Appending to a fixed string on the left is injective. -/
lemma string_append_left_cancel {a b c : String} (h : a ++ b = a ++ c) : b = c := by
  have hd : a.data ++ b.data = a.data ++ c.data := by
    rw [← string_data_append, ← string_data_append, h]
  have hdata : b.data = c.data := List.append_cancel_left hd
  cases b
  cases c
  exact congrArg String.mk hdata

/-- C2 amended: identifier uniqueness holds in the collision-free cases:
two user messages created at distinct milliseconds have distinct ids; two
documents created at the same millisecond with distinct random suffixes
have distinct ids; and a document id (a string) is never equal to a chat
message id (a number).  (Two sends in the same millisecond, however,
produce equal ids — see the counterexample.) -/
theorem id_uniqueness_amended :
    (∀ (t₁ t₂ : Int) (x₁ x₂ : String), t₁ ≠ t₂ →
      (mkUserMessage x₁ t₁).id ≠ (mkUserMessage x₂ t₂).id) ∧
    (∀ (f₁ f₂ : JsFile) (e₁ e₂ : UploadEnv), e₁.now = e₂.now → e₁.rand ≠ e₂.rand →
      (mkDocument f₁ e₁).id ≠ (mkDocument f₂ e₂).id) ∧
    (∀ (f : JsFile) (e : UploadEnv) (x : String) (t : Int),
      (mkDocument f e).id ≠ (mkUserMessage x t).id) ∧
    (∀ (f : JsFile) (e : UploadEnv) (a : Option Document) (t : Int) (p : Nat),
      (mkDocument f e).id ≠ (mkBotResponse a t p).id) := by
  refine ⟨?_, ?_, ?_, ?_⟩
  · intro t₁ t₂ x₁ x₂ hne h
    exact hne (by simpa [mkUserMessage] using h)
  · intro f₁ f₂ e₁ e₂ hnow hrand h
    simp only [mkDocument, JsId.str.injEq] at h
    rw [hnow] at h
    exact hrand (string_append_left_cancel h)
  · intro f e x t h
    simp [mkDocument, mkUserMessage] at h
  · intro f e a t p h
    simp [mkDocument, mkBotResponse] at h

/-- Witness for the amended C2 at concrete inputs. -/
theorem id_uniqueness_amended_witness :
    (mkUserMessage "a" 1).id ≠ (mkUserMessage "b" 2).id ∧
    (mkDocument { name := "f", type := pdfMime, size := 1 }
        { now := 9, rand := "x", uploadDate := "d", pageRand := 0 }).id ≠
      (mkDocument { name := "g", type := pdfMime, size := 2 }
        { now := 9, rand := "y", uploadDate := "d", pageRand := 0 }).id ∧
    (mkDocument { name := "f", type := pdfMime, size := 1 }
        { now := 9, rand := "x", uploadDate := "d", pageRand := 0 }).id ≠
      (mkUserMessage "a" 9).id := by
  refine ⟨id_uniqueness_amended.1 1 2 "a" "b" (by decide),
    id_uniqueness_amended.2.1 _ _ _ _ rfl (by decide),
    id_uniqueness_amended.2.2.1 _ _ "a" 9⟩

/-! ## `handleFiles` (DocumentUploader.jsx, lines 58-104)

The upload promises of the source always resolve (the executor only ever
calls `resolve`), so the `.catch` branch of `Promise.all` is unreachable
and only the resolution path is modelled.  The per-file `Date.now()` /
`Math.random()` draws are modelled by a family of upload environments
indexed by the file's position among the valid files. -/

/-- The state read and written by `handleFiles` once the simulated upload
settles. -/
structure UploaderResult where
  documents : List Document
  uploadError : Option String
  isUploading : Bool
deriving DecidableEq

/-- The alert string surfaced when no selected file has an allowed type. -/
def uploadErrorMessage : String := "Only PDF and Word documents are supported."

/-- The documents built for the valid files, in order, each with its own
upload environment (`validFiles.map(file => ...)`). -/
def mkDocuments (envs : Nat → UploadEnv) : Nat → List JsFile → List Document
  | _, [] => []
  | i, f :: rest => mkDocument f (envs i) :: mkDocuments envs (i + 1) rest

/-- `handleFiles(files)`: filter the files by `allowedFileTypes`; when none
remain, surface the alert string and leave the document list unchanged;
otherwise append the new document records to the context's list. -/
def handleFiles (docs : List Document) (files : List JsFile)
    (envs : Nat → UploadEnv) : UploaderResult :=
  let validFiles := files.filter (fun f => allowedFileTypes.contains f.type)
  if validFiles.length = 0 then
    { documents := docs, uploadError := some uploadErrorMessage, isUploading := false }
  else
    { documents := docs ++ mkDocuments envs 0 validFiles
      uploadError := none
      isUploading := false }

/-- Every document built by `mkDocuments` comes from one of the given files
with some environment. -/
lemma mem_mkDocuments (envs : Nat → UploadEnv) :
    ∀ (fs : List JsFile) (i : Nat) (d : Document), d ∈ mkDocuments envs i fs →
      ∃ f ∈ fs, ∃ j, d = mkDocument f (envs j) := by
  intro fs
  induction fs with
  | nil => intro i d hd; simp [mkDocuments] at hd
  | cons f rest ih =>
    intro i d hd
    simp only [mkDocuments, List.mem_cons] at hd
    cases hd with
    | inl h => exact ⟨f, by simp, i, h⟩
    | inr h =>
      obtain ⟨g, hg, j, hj⟩ := ih (i + 1) d h
      exact ⟨g, by simp [hg], j, hj⟩

/-- C4: when every selected file has a disallowed MIME type, `handleFiles`
surfaces the alert string and leaves the document list exactly unchanged;
and in every case, a document in the resulting list is either a
pre-existing one or has an allowed MIME type (disallowed files are never
added). -/
theorem handleFiles_rejects_invalid (docs : List Document) (files : List JsFile)
    (envs : Nat → UploadEnv) :
    ((∀ f ∈ files, ¬ allowedFileTypes.contains f.type) →
      handleFiles docs files envs =
        { documents := docs, uploadError := some uploadErrorMessage,
          isUploading := false }) ∧
    (∀ d ∈ (handleFiles docs files envs).documents,
      d ∈ docs ∨ allowedFileTypes.contains d.type = true) := by
  constructor
  · intro hall
    have hfil : files.filter (fun f => allowedFileTypes.contains f.type) = [] := by
      simp only [List.filter_eq_nil_iff]
      intro f hf
      simpa using hall f hf
    rw [handleFiles]
    simp only [hfil]
    rfl
  · intro d hd
    rw [handleFiles] at hd
    by_cases hlen :
        (files.filter (fun f => allowedFileTypes.contains f.type)).length = 0
    · rw [if_pos hlen] at hd
      exact Or.inl hd
    · rw [if_neg hlen] at hd
      simp only [List.mem_append] at hd
      cases hd with
      | inl h => exact Or.inl h
      | inr h =>
        obtain ⟨f, hf, j, hj⟩ := mem_mkDocuments envs _ 0 d h
        have hvalid : allowedFileTypes.contains f.type = true :=
          (List.mem_filter.1 hf).2
        right
        rw [hj]
        exact hvalid

/-- Witness for C4 at a concrete input: a single plain-text file is
rejected, the document list stays empty and the alert string is set. -/
theorem handleFiles_rejects_invalid_witness :
    handleFiles [] [{ name := "a.txt", type := "text/plain", size := 1 }]
        (fun _ => { now := 0, rand := "r", uploadDate := "d", pageRand := 0 }) =
      { documents := [], uploadError := some uploadErrorMessage,
        isUploading := false } := by
  exact (handleFiles_rejects_invalid [] [{ name := "a.txt", type := "text/plain", size := 1 }]
    (fun _ => { now := 0, rand := "r", uploadDate := "d", pageRand := 0 })).1 (by decide)

/-! ## `extractPdfText` (fileHandlers.js, lines 12-49)

The pdf.js library calls (`file.arrayBuffer()`, `getDocument`, `getPage`,
`getTextContent`) are external; their combined outcome is abstracted as a
`PdfOutcome` value: the load may fail, a page read may fail after some
pages were already read, or every page text is obtained.  The `try/catch`
and the construction of the result follow the source.  `console.error(msg,
error)` is modelled as the logged line `msg ++ error`. -/

/-- Outcome of the pdf.js calls inside the `try` block. -/
inductive PdfOutcome where
  | loadFail (err : String)
  | pageFail (pagesRead : List String) (err : String)
  | ok (pageTexts : List String) (metaInfo : Option (List (String × String)))

/-- One entry of the `pages` array: `{ pageNumber: i, text: pageText }`. -/
structure PdfPage where
  pageNumber : Nat
  text : String
deriving DecidableEq

/-- The success value of `extractPdfText`. -/
structure PdfExtract where
  text : String
  pages : List PdfPage
  metadata : List (String × String)
  numPages : Nat
deriving DecidableEq

/-- The observable effect of an async function: the console lines it logged
and its settled result (`.error` models a thrown `Error` by its message). -/
structure ConsoleResult (α : Type) where
  console : List String
  result : Except String α

/-- The message of the error thrown by the `catch` block. -/
def pdfErrorMessage : String := "Failed to extract text from PDF"

/-- The `for (let i = 1; i <= numPages; i++)` loop: page records numbered
from `start` in order. -/
def mkPdfPages : Nat → List String → List PdfPage
  | _, [] => []
  | start, t :: rest => { pageNumber := start, text := t } :: mkPdfPages (start + 1) rest

/-- `extractPdfText(file)`. -/
def extractPdfText : PdfOutcome → ConsoleResult PdfExtract
  | .loadFail err =>
    { console := ["Error extracting text from PDF: " ++ err]
      result := .error pdfErrorMessage }
  | .pageFail _ err =>
    { console := ["Error extracting text from PDF: " ++ err]
      result := .error pdfErrorMessage }
  | .ok pageTexts metaInfo =>
    let pages := mkPdfPages 1 pageTexts
    { console := []
      result := .ok
        { text := String.intercalate " " (pages.map PdfPage.text)
          pages := pages
          metadata := metaInfo.getD []
          numPages := pageTexts.length } }

/-- The texts of the built page records are the page texts, in order. -/
lemma mkPdfPages_map_text :
    ∀ (l : List String) (n : Nat), (mkPdfPages n l).map PdfPage.text = l := by
  intro l
  induction l with
  | nil => intro n; rfl
  | cons t rest ih => intro n; simp [mkPdfPages, ih]

/-- The page numbers of the built page records are `n, n+1, ...` in order. -/
lemma mkPdfPages_map_pageNumber :
    ∀ (l : List String) (n : Nat),
      (mkPdfPages n l).map PdfPage.pageNumber = List.range' n l.length := by
  intro l
  induction l with
  | nil => intro n; rfl
  | cons t rest ih => intro n; simp [mkPdfPages, List.range'_succ, ih]

/-- C3: when any pdf.js step fails, `extractPdfText` logs the underlying
error and throws an `Error` whose message is exactly
`"Failed to extract text from PDF"`, discarding any pages already read; on
success it returns the page texts joined (with single spaces) in page
order, with pages numbered `1..numPages`. -/
theorem extractPdfText_spec :
    (∀ err, extractPdfText (.loadFail err) =
      { console := ["Error extracting text from PDF: " ++ err]
        result := .error pdfErrorMessage }) ∧
    (∀ pagesRead err, extractPdfText (.pageFail pagesRead err) =
      { console := ["Error extracting text from PDF: " ++ err]
        result := .error pdfErrorMessage }) ∧
    (∀ pageTexts metaInfo, ∃ e,
      (extractPdfText (.ok pageTexts metaInfo)).result = .ok e ∧
      e.text = String.intercalate " " pageTexts ∧
      e.pages.map PdfPage.text = pageTexts ∧
      e.pages.map PdfPage.pageNumber = List.range' 1 pageTexts.length ∧
      e.numPages = pageTexts.length) := by
  refine ⟨fun err => rfl, fun pagesRead err => rfl, ?_⟩
  intro pageTexts metaInfo
  refine ⟨_, rfl, ?_, ?_, ?_, rfl⟩
  · simp [mkPdfPages_map_text]
  · simp [mkPdfPages_map_text]
  · simp [mkPdfPages_map_pageNumber]

/-! ## `findRelevantPassages` (fileHandlers.js, lines 369-406)

The source builds `new RegExp(word, 'gi')` from each unescaped query word.
The ECMAScript `RegExp` builtin is external; it is modelled on the literal
fragment: a pattern containing no regex metacharacter compiles and its
global match count is the number of leftmost non-overlapping literal
occurrences; a pattern containing a metacharacter is modelled as failing to
compile with a `SyntaxError` (conservatively: a few metacharacter patterns
are valid in full ECMAScript, but e.g. an unmatched `(` is not, and all
inputs used in the theorems below lie in the faithful fragment).  The `'i'`
flag is subsumed because both the word and the chunk are lowercased by the
source before matching. -/

/-- The ECMAScript regular-expression metacharacters. -/
def regexMetaChars : List Char :=
  ['\\', '^', '$', '.', '|', '?', '*', '+', '(', ')', '[', ']', '\x7b', '\x7d']

/-- Whether `new RegExp(pattern, 'gi')` lies in the literal fragment (no
metacharacter), in which case construction succeeds and the regex matches
the pattern literally. -/
def jsRegExpValidLit (pattern : List Char) : Bool :=
  pattern.all (fun c => !regexMetaChars.contains c)

/-- `String.prototype.includes(needle)` on the embedding: some slice of the
haystack equals the needle (`"".includes` of an empty needle is true). -/
def jsIncludes (needle : List Char) : List Char → Bool
  | [] => needle.isEmpty
  | c :: rest => needle.isPrefixOf (c :: rest) || jsIncludes needle rest

/-- One element of the returned array: `{ text: chunk, score: score }`. -/
structure Passage where
  text : List Char
  score : Nat
deriving DecidableEq

/-- One step of the `for (const word of queryWords)` scoring loop: words of
length at most 3 are skipped; otherwise the regex is built (throwing on an
invalid pattern) and the number of matches, when any, is added. -/
def scoreWord (chunkLower : List Char) (score : Nat) (word : List Char) :
    Except String Nat :=
  if word.length > 3 then
    if jsRegExpValidLit word then
      let m := countOcc word chunkLower
      Except.ok (if m > 0 then score + m else score)
    else Except.error "Invalid regular expression"
  else Except.ok score

/-- The body of `textChunks.map(chunk => ...)`: the chunk is lowercased,
scored word by word, and the score is doubled when the chunk contains every
query word longer than 3 characters. -/
def scoreChunk (queryWords : List (List Char)) (chunk : List Char) :
    Except String Passage := do
  let chunkLower := jsToLower chunk
  let score ← queryWords.foldlM (scoreWord chunkLower) 0
  let containsAllWords :=
    (queryWords.filter (fun w => w.length > 3)).all (fun w => jsIncludes w chunkLower)
  pure { text := chunk, score := if containsAllWords then score * 2 else score }

/-- Stable insertion keeping scores non-increasing (an element is inserted
after every element of score at least its own, as the stable
`sort((a, b) => b.score - a.score)` does). -/
def insertDesc (p : Passage) : List Passage → List Passage
  | [] => [p]
  | q :: rest => if p.score ≥ q.score then p :: q :: rest else q :: insertDesc p rest

/-- Stable sort by non-increasing score. -/
def sortByScoreDesc : List Passage → List Passage
  | [] => []
  | p :: rest => insertDesc p (sortByScoreDesc rest)

/-- `findRelevantPassages(query, textChunks)`: a thrown `SyntaxError` from
`new RegExp` aborts the whole call (`.error`); otherwise the scored chunks
are filtered to the strictly positive scores and sorted by non-increasing
score. -/
def findRelevantPassages (query : List Char) (textChunks : List (List Char)) :
    Except String (List Passage) := do
  let queryWords := jsSplitWs (jsToLower query)
  let scored ← textChunks.mapM (scoreChunk queryWords)
  pure (sortByScoreDesc (scored.filter (fun p => p.score > 0)))

/-- Specification-side closed form of the scoring loop's total: the sum,
over the query words longer than 3 characters, of the number of literal
occurrences in the lowercased chunk. -/
def baseScore (queryWords : List (List Char)) (chunkLower : List Char) : Nat :=
  ((queryWords.filter (fun w => w.length > 3)).map
    (fun w => countOcc w chunkLower)).sum

/-- Specification-side closed form of the final score of a chunk. -/
def chunkScore (queryWords : List (List Char)) (chunk : List Char) : Nat :=
  if (queryWords.filter (fun w => w.length > 3)).all
      (fun w => jsIncludes w (jsToLower chunk)) then
    baseScore queryWords (jsToLower chunk) * 2
  else
    baseScore queryWords (jsToLower chunk)

/-- When every word longer than 3 characters is a valid (literal) pattern,
the scoring loop never throws and computes `init + baseScore`. -/
lemma foldlM_scoreWord_ok (chunkLower : List Char) :
    ∀ (words : List (List Char)),
      (∀ w ∈ words, w.length > 3 → jsRegExpValidLit w = true) →
      ∀ s : Nat, words.foldlM (scoreWord chunkLower) s =
        Except.ok (s + baseScore words chunkLower) := by
  intro words
  induction words with
  | nil =>
    intro _ s
    rw [List.foldlM_nil]
    show Except.ok s = _
    simp [baseScore]
  | cons w rest ih =>
    intro h s
    have hrest : ∀ w ∈ rest, w.length > 3 → jsRegExpValidLit w = true :=
      fun x hx => h x (List.mem_cons_of_mem w hx)
    by_cases hw : w.length > 3
    · have hvalid : jsRegExpValidLit w = true := h w (List.mem_cons_self w rest) hw
      have hstep : scoreWord chunkLower s w =
          Except.ok (s + countOcc w chunkLower) := by
        rw [scoreWord, if_pos hw, if_pos hvalid]
        show Except.ok (if countOcc w chunkLower > 0
          then s + countOcc w chunkLower else s) = _
        by_cases hm : countOcc w chunkLower > 0
        · rw [if_pos hm]
        · have hm0 : countOcc w chunkLower = 0 := by omega
          rw [if_neg hm, hm0, Nat.add_zero]
      rw [List.foldlM_cons, hstep]
      show rest.foldlM (scoreWord chunkLower) (s + countOcc w chunkLower) = _
      rw [ih hrest]
      have : baseScore (w :: rest) chunkLower =
          countOcc w chunkLower + baseScore rest chunkLower := by
        simp [baseScore, hw]
      rw [this]
      congr 1
      omega
    · have hstep : scoreWord chunkLower s w = Except.ok s := by
        rw [scoreWord, if_neg hw]
      rw [List.foldlM_cons, hstep]
      show rest.foldlM (scoreWord chunkLower) s = _
      rw [ih hrest]
      have : baseScore (w :: rest) chunkLower = baseScore rest chunkLower := by
        simp [baseScore, hw]
      rw [this]

/-- Under the same validity assumption, scoring one chunk succeeds and
yields exactly the closed-form score. -/
lemma scoreChunk_ok (queryWords : List (List Char))
    (h : ∀ w ∈ queryWords, w.length > 3 → jsRegExpValidLit w = true)
    (chunk : List Char) :
    scoreChunk queryWords chunk =
      Except.ok { text := chunk, score := chunkScore queryWords chunk } := by
  rw [scoreChunk]
  rw [foldlM_scoreWord_ok (jsToLower chunk) queryWords h 0]
  show Except.ok _ = Except.ok _
  simp [chunkScore]

/-- Mapping the scorer over the chunks succeeds pointwise. -/
lemma mapM_scoreChunk_ok (queryWords : List (List Char))
    (h : ∀ w ∈ queryWords, w.length > 3 → jsRegExpValidLit w = true) :
    ∀ chunks : List (List Char),
      chunks.mapM (scoreChunk queryWords) =
        Except.ok (chunks.map
          (fun c => { text := c, score := chunkScore queryWords c })) := by
  intro chunks
  induction chunks with
  | nil => rfl
  | cons c rest ih =>
    rw [List.mapM_cons, scoreChunk_ok queryWords h c]
    show (rest.mapM (scoreChunk queryWords) >>= _) = _
    rw [ih]
    rfl

/-- `insertDesc` inserts, up to permutation. -/
lemma insertDesc_perm (p : Passage) :
    ∀ l : List Passage, List.Perm (insertDesc p l) (p :: l) := by
  intro l
  induction l with
  | nil => exact List.Perm.refl _
  | cons q rest ih =>
    rw [insertDesc]
    by_cases hpq : p.score ≥ q.score
    · rw [if_pos hpq]
    · rw [if_neg hpq]
      exact (ih.cons q).trans (List.Perm.swap p q rest)

/-- `sortByScoreDesc` permutes its input. -/
lemma sortByScoreDesc_perm :
    ∀ l : List Passage, List.Perm (sortByScoreDesc l) l := by
  intro l
  induction l with
  | nil => exact List.Perm.refl _
  | cons p rest ih =>
    exact (insertDesc_perm p (sortByScoreDesc rest)).trans (ih.cons p)

/-- Insertion preserves the non-increasing-score invariant. -/
lemma insertDesc_pairwise (p : Passage) :
    ∀ l : List Passage, l.Pairwise (fun a b => b.score ≤ a.score) →
      (insertDesc p l).Pairwise (fun a b => b.score ≤ a.score) := by
  intro l
  induction l with
  | nil => intro _; simp [insertDesc]
  | cons q rest ih =>
    intro hl
    rw [List.pairwise_cons] at hl
    obtain ⟨hq, hrest⟩ := hl
    rw [insertDesc]
    by_cases hpq : p.score ≥ q.score
    · rw [if_pos hpq]
      rw [List.pairwise_cons]
      refine ⟨?_, List.pairwise_cons.2 ⟨hq, hrest⟩⟩
      intro b hb
      rcases List.mem_cons.1 hb with hbq | hbr
      · rw [hbq]; exact hpq
      · exact le_trans (hq b hbr) hpq
    · rw [if_neg hpq]
      rw [List.pairwise_cons]
      refine ⟨?_, ih hrest⟩
      intro b hb
      have hb' := (insertDesc_perm p rest).mem_iff.1 hb
      rcases List.mem_cons.1 hb' with hbp | hbr
      · rw [hbp]; omega
      · exact hq b hbr

/-- The sorted output is ordered by non-increasing score. -/
lemma sortByScoreDesc_pairwise :
    ∀ l : List Passage,
      (sortByScoreDesc l).Pairwise (fun a b => b.score ≤ a.score) := by
  intro l
  induction l with
  | nil => simp [sortByScoreDesc]
  | cons p rest ih => exact insertDesc_pairwise p (sortByScoreDesc rest) ih

/-- Under the word-validity assumption the whole call succeeds, with the
scored, filtered, sorted list in closed form. -/
lemma findRelevantPassages_ok (query : List Char) (chunks : List (List Char))
    (h : ∀ w ∈ jsSplitWs (jsToLower query), w.length > 3 → jsRegExpValidLit w = true) :
    findRelevantPassages query chunks =
      Except.ok (sortByScoreDesc
        ((chunks.map (fun c =>
          { text := c, score := chunkScore (jsSplitWs (jsToLower query)) c })).filter
            (fun p => p.score > 0))) := by
  rw [findRelevantPassages]
  show (chunks.mapM (scoreChunk (jsSplitWs (jsToLower query))) >>= fun scored =>
    pure (sortByScoreDesc (scored.filter (fun p => p.score > 0)))) = _
  rw [mapM_scoreChunk_ok (jsSplitWs (jsToLower query)) h chunks]
  rfl

/-- C6 counterexample: the claim's universal statement fails because
`findRelevantPassages` can fail to return a list at all: a query word
longer than 3 characters made of regex metacharacters (here `"((((("`,
an unterminated group) makes `new RegExp(word, 'gi')` throw, so the call
on a non-empty chunk list throws instead of returning a scored list. -/
theorem findRelevantPassages_not_total :
    findRelevantPassages ['(', '(', '(', '(', '('] [['b']] =
      Except.error "Invalid regular expression" := by
  rfl

/-- C6 (amended): on every query whose words longer than 3 characters
contain no regex metacharacter, `findRelevantPassages` returns a list in
which every element's text is one of the input chunks, every score is
strictly positive, the elements are ordered by non-increasing score, and
each element's score is the word-occurrence total, doubled when the chunk
contains every query word longer than 3 characters. -/
theorem findRelevantPassages_spec (query : List Char) (chunks : List (List Char))
    (h : ∀ w ∈ jsSplitWs (jsToLower query), w.length > 3 → jsRegExpValidLit w = true) :
    ∃ l, findRelevantPassages query chunks = Except.ok l ∧
      (∀ p ∈ l, p.text ∈ chunks) ∧
      (∀ p ∈ l, 0 < p.score) ∧
      l.Pairwise (fun a b => b.score ≤ a.score) ∧
      (∀ p ∈ l, p.score = chunkScore (jsSplitWs (jsToLower query)) p.text) := by
  refine ⟨_, findRelevantPassages_ok query chunks h, ?_, ?_, ?_, ?_⟩
  · intro p hp
    have hp' := (sortByScoreDesc_perm _).mem_iff.1 hp
    obtain ⟨c, hc, hpc⟩ := List.mem_map.1 (List.mem_filter.1 hp').1
    rw [← hpc]
    exact hc
  · intro p hp
    have hp' := (sortByScoreDesc_perm _).mem_iff.1 hp
    have hpos := (List.mem_filter.1 hp').2
    simpa using hpos
  · exact sortByScoreDesc_pairwise _
  · intro p hp
    have hp' := (sortByScoreDesc_perm _).mem_iff.1 hp
    obtain ⟨c, hc, hpc⟩ := List.mem_map.1 (List.mem_filter.1 hp').1
    rw [← hpc]

/-- Witness for the amended C6 at a concrete input. -/
theorem findRelevantPassages_spec_witness :
    ∃ l, findRelevantPassages ['t', 'e', 's', 't'] [['t', 'e', 's', 't']] =
        Except.ok l ∧
      (∀ p ∈ l, p.text ∈ [['t', 'e', 's', 't']]) ∧
      (∀ p ∈ l, 0 < p.score) ∧
      l.Pairwise (fun a b => b.score ≤ a.score) ∧
      (∀ p ∈ l, p.score =
        chunkScore (jsSplitWs (jsToLower ['t', 'e', 's', 't'])) p.text) := by
  exact findRelevantPassages_spec ['t', 'e', 's', 't'] [['t', 'e', 's', 't']] (by decide)

/-- C9 counterexample: `new RegExp(word, 'gi')` is built from the raw query
word, so a word with regex metacharacters (here `"(((("`, an unterminated
group) makes the construction throw and `findRelevantPassages` fails. -/
theorem regexp_construction_throws :
    findRelevantPassages ['(', '(', '(', '('] [['a']] =
      Except.error "Invalid regular expression" := by
  rfl

/-- C9 (amended): `findRelevantPassages` returns without throwing provided
every query word longer than 3 characters contains no regex metacharacter
(so that every `new RegExp(word, 'gi')` construction succeeds). -/
theorem findRelevantPassages_no_throw (query : List Char) (chunks : List (List Char))
    (h : ∀ w ∈ jsSplitWs (jsToLower query), w.length > 3 → jsRegExpValidLit w = true) :
    ∃ l, findRelevantPassages query chunks = Except.ok l := by
  exact ⟨_, findRelevantPassages_ok query chunks h⟩

/-- Witness for the amended C9 at a concrete input. -/
theorem findRelevantPassages_no_throw_witness :
    ∃ l, findRelevantPassages ['h', 'e', 'l', 'l', 'o']
        [['h', 'e', 'l', 'l', 'o']] = Except.ok l := by
  exact findRelevantPassages_no_throw ['h', 'e', 'l', 'l', 'o']
    [['h', 'e', 'l', 'l', 'o']] (by decide)

end StudyAssistant
